import Mathlib

/-!
Shallow embedding of the mainframe-data-migration core
(mf_spark: converters/vsam_types.py, utils/encoding.py,
parsers/copybook_parser.py, parsers/ddl_parser.py), together with
theorems settling the frozen claims about the natural-language spec.

Strings are modelled as lists of characters; bytes as natural numbers
below 256; Python Decimal values as rationals (Decimal "-0" compares
equal to 0, as does (-0 : Rat)).  Python functions that can raise are
modelled with Except or Option.
-/

/-! ### Python string primitives -/

/-- The ASCII whitespace characters recognised by Python str.strip,
str.split and by the regex class backslash-s. -/
def pyIsWs (c : Char) : Bool :=
  c = ' ' || c = '\t' || c = '\n' || c = '\x0b' || c = '\x0c' || c = '\r'

/-- Python str.lstrip with no argument. -/
def pyLstrip (s : List Char) : List Char := s.dropWhile pyIsWs

/-- Python str.rstrip with no argument. -/
def pyRstrip (s : List Char) : List Char := (s.reverse.dropWhile pyIsWs).reverse

/-- Python str.strip with no argument. -/
def pyStrip (s : List Char) : List Char := pyRstrip (pyLstrip s)

/-- Python str.upper, restricted to ASCII letters (all inputs of the
claims are ASCII). -/
def toUpperList (s : List Char) : List Char := s.map Char.toUpper

/-- Is the character an ASCII decimal digit. -/
def isDig (c : Char) : Bool := '0' ≤ c && c ≤ '9'

/-- Numeric value of an ASCII digit character. -/
def charVal (c : Char) : ℕ := c.toNat - 48

/-- The natural number denoted by a list of ASCII decimal digit
characters (the model of Python int() applied to a digit string). -/
def natOfDecChars (s : List Char) : ℕ := s.foldl (fun a c => 10 * a + charVal c) 0

/-- Little-endian base-10 digits of a natural number, with fuel for
structural recursion; empty for zero. -/
def decDigitsCore : ℕ → ℕ → List ℕ
  | 0, _ => []
  | fuel + 1, n => if n = 0 then [] else n % 10 :: decDigitsCore fuel (n / 10)

/-- The decimal digit values of str(n), most significant first. -/
def pyReprVals (n : ℕ) : List ℕ :=
  if n = 0 then [0] else (decDigitsCore n n).reverse

/-- The model of Python str applied to a natural number: its decimal
digit characters. -/
def pyNatRepr (n : ℕ) : List Char :=
  (pyReprVals n).map (fun d => Char.ofNat (48 + d))

/-- Python str.zfill: left-pad with zero characters to the given width. -/
def zfill (s : List Char) (width : ℕ) : List Char :=
  List.replicate (width - s.length) '0' ++ s

/-- Split a list of characters at every occurrence of the separator
(the model of Python str.split with a one-character argument). -/
def splitOnChar (sep : Char) (s : List Char) : List (List Char) :=
  s.foldr
    (fun c acc =>
      match acc with
      | [] => [[c]]
      | g :: gs => if c = sep then [] :: g :: gs else (c :: g) :: gs)
    [[]]

/-! ### utils/encoding.py — EBCDICConverter numeric decoders -/

/-- The string of decimal characters built by joining str(d) over a
list of digit values, as in the decoders of encoding.py
(num_str built from digits; values above 9 contribute two characters). -/
def digitsStr (ds : List ℕ) : List Char :=
  ds.foldl (fun s d => s ++ pyNatRepr d) []

/-- The decimal-point insertion step shared by decode_packed_decimal and
decode_zoned_decimal: when scale is positive, left-pad the digit string
with zeros so it is longer than scale, then insert a point before the
last scale characters. -/
def padScale (s : List Char) (scale : ℤ) : List Char :=
  if 0 < scale then
    let k := scale.toNat
    let s1 := if s.length ≤ k then List.replicate (k - s.length + 1) '0' ++ s else s
    s1.take (s1.length - k) ++ '.' :: s1.drop (s1.length - k)
  else s

/-- Value of a sign-free decimal string: integer part, optional point,
fraction part (the model of the Python Decimal constructor on the
strings the decoders build). -/
def decimalMag (s : List Char) : ℚ :=
  (natOfDecChars (s.takeWhile (fun c => c ≠ '.') ++ (s.dropWhile (fun c => c ≠ '.')).drop 1) : ℚ)
    / 10 ^ ((s.dropWhile (fun c => c ≠ '.')).drop 1).length

/-- Value of a decimal string with an optional leading minus sign
(the model of the Python Decimal constructor). -/
def decimalOfString (s : List Char) : ℚ :=
  if s.head? = some '-' then - decimalMag (s.drop 1) else decimalMag s

/-- The digit nibbles extracted by decode_packed_decimal: both nibbles
of every byte but the last, then the high nibble of the last byte. -/
def packedDigits (data : List ℕ) : List ℕ :=
  (data.dropLast.flatMap fun b => [b / 16, b % 16]) ++ [(data.getLast?.getD 0) / 16]

/-- The sign nibble of a packed decimal: the low nibble of the last byte. -/
def packedSignNibble (data : List ℕ) : ℕ := (data.getLast?.getD 0) % 16

/-- EBCDICConverter.decode_packed_decimal: empty input gives 0; otherwise
join the digit nibbles into a decimal string, insert the scale point,
and prepend a minus character exactly when the sign nibble is 0xD.  No
sign nibble raises an error in the source. -/
def decode_packed_decimal (data : List ℕ) (scale : ℤ) : ℚ :=
  if data = [] then 0
  else
    decimalOfString
      (if packedSignNibble data = 13 then '-' :: padScale (digitsStr (packedDigits data)) scale
       else padScale (digitsStr (packedDigits data)) scale)

/-- The byte-packing loop of encode_packed_decimal: range(0, len-1, 2)
pairs consecutive digits into bytes, leaving a trailing odd digit
unconsumed. -/
def packPairs : List ℕ → List ℕ
  | a :: b :: rest => (a * 16 + b) :: packPairs rest
  | _ => []

/-- EBCDICConverter.encode_packed_decimal: sign nibble 0xC for
non-negative and 0xD for negative values; scale the value to an integer,
left-pad its digit string to the precision, pack digit pairs, then
append the last digit with the sign (even length) or overwrite the low
nibble of the final byte with the sign (odd length).  The odd branch
indexes result[-1], which raises IndexError when no byte was packed;
that raise is modelled by none. -/
def encode_packed_decimal (value : ℚ) (precision : ℕ) (scale : ℤ) : Option (List ℕ) :=
  let sign := if 0 ≤ value then 12 else 13
  let v0 := |value|
  let v1 := if 0 < scale then v0 * 10 ^ scale.toNat else v0
  let n := (Rat.floor v1).toNat
  let digits := zfill (pyNatRepr n) precision
  let ds := digits.map charVal
  let result := packPairs ds
  if ds.length % 2 = 0 then
    some (result ++ [(ds.getLast?.getD 0) * 16 + sign])
  else
    match result.getLast? with
    | none => none
    | some b => some (result.dropLast ++ [b / 16 * 16 + sign])

/-- The digit values extracted by decode_zoned_decimal: the low nibble
of every byte. -/
def zonedDigits (data : List ℕ) : List ℕ := data.map (fun b => b % 16)

/-- The zone nibble of the last byte of a zoned decimal. -/
def zonedZone (data : List ℕ) : ℕ := (data.getLast?.getD 0) / 16

/-- EBCDICConverter.decode_zoned_decimal: empty input gives 0; otherwise
join the low nibbles into a decimal string, insert the scale point, and
multiply by -1 exactly when the zone nibble of the last byte is 0xD. -/
def decode_zoned_decimal (data : List ℕ) (scale : ℤ) : ℚ :=
  if data = [] then 0
  else
    decimalOfString (padScale (digitsStr (zonedDigits data)) scale) *
      (if zonedZone data = 13 then (-1 : ℚ) else 1)

/-- EBCDICConverter.decode_binary: empty input gives 0; otherwise the
big-endian value, two's-complement when signed. -/
def decode_binary (data : List ℕ) (signed : Bool) : ℤ :=
  if data = [] then 0
  else
    let u : ℕ := data.foldl (fun a b => a * 256 + b) 0
    if signed = true ∧ 2 ^ (8 * data.length - 1) ≤ u then (u : ℤ) - (2 : ℤ) ^ (8 * data.length)
    else (u : ℤ)

/-! ### Evaluation and sign lemmas for the decoders -/

/-- The magnitude of a decimal string is never negative. -/
theorem decimalMag_nonneg (s : List Char) : 0 ≤ decimalMag s := by
  unfold decimalMag
  positivity

/-- A string that does not start with a minus sign denotes its magnitude. -/
theorem decimalOfString_of_head (s : List Char) (h : s.head? ≠ some '-') :
    decimalOfString s = decimalMag s := by
  unfold decimalOfString
  rw [if_neg h]

/-- Characters of the joined digit string come from the str images of
its digit values. -/
theorem mem_digitsStr_aux (ds : List ℕ) (acc : List Char) (c : Char) :
    c ∈ ds.foldl (fun s d => s ++ pyNatRepr d) acc →
      c ∈ acc ∨ ∃ d ∈ ds, c ∈ pyNatRepr d := by
  induction ds generalizing acc with
  | nil => intro h; exact Or.inl h
  | cons d ds ih =>
    intro h
    rcases ih (acc ++ pyNatRepr d) h with h1 | h1
    · rcases List.mem_append.mp h1 with h2 | h2
      · exact Or.inl h2
      · exact Or.inr ⟨d, List.mem_cons_self .., h2⟩
    · obtain ⟨e, he, hc⟩ := h1
      exact Or.inr ⟨e, List.mem_cons_of_mem _ he, hc⟩

/-- Characters of the joined digit string come from the str images of
its digit values. -/
theorem mem_digitsStr (ds : List ℕ) (c : Char) (h : c ∈ digitsStr ds) :
    ∃ d ∈ ds, c ∈ pyNatRepr d := by
  rcases mem_digitsStr_aux ds [] c h with h1 | h1
  · simp at h1
  · exact h1

/-- Every value produced by the fuelled base-10 digit extraction is a
single decimal digit. -/
theorem decDigitsCore_lt (fuel : ℕ) : ∀ (n : ℕ), ∀ x ∈ decDigitsCore fuel n, x < 10 := by
  induction fuel with
  | zero => intro n x hx; simp [decDigitsCore] at hx
  | succ fuel ih =>
    intro n x hx
    by_cases h : n = 0
    · simp [decDigitsCore, h] at hx
    · rw [decDigitsCore, if_neg h] at hx
      rcases List.mem_cons.mp hx with rfl | hx
      · exact Nat.mod_lt _ (by norm_num)
      · exact ih _ x hx

/-- Every value in the digit-value list of str(n) is a single decimal
digit. -/
theorem pyReprVals_lt (n : ℕ) : ∀ x ∈ pyReprVals n, x < 10 := by
  intro x hx
  unfold pyReprVals at hx
  by_cases h : n = 0
  · rw [if_pos h] at hx
    simp at hx
    omega
  · rw [if_neg h, List.mem_reverse] at hx
    exact decDigitsCore_lt n n x hx

/-- The character of a single decimal digit is an ASCII digit. -/
theorem isDig_digitChar : ∀ d, d < 10 → isDig (Char.ofNat (48 + d)) = true := by decide

/-- Every character of str(n) is an ASCII digit. -/
theorem mem_pyNatRepr_isDig (n : ℕ) (c : Char) (h : c ∈ pyNatRepr n) : isDig c = true := by
  unfold pyNatRepr at h
  rw [List.mem_map] at h
  obtain ⟨d, hd, rfl⟩ := h
  exact isDig_digitChar d (pyReprVals_lt n d hd)

/-- An ASCII digit is not the minus character. -/
theorem isDig_ne_minus (c : Char) (h : isDig c = true) : c ≠ '-' := by
  intro hc
  subst hc
  exact absurd h (by decide)

/-- Characters of the point-insertion output are the point, a padding
zero, or a character of the input. -/
theorem mem_padScale (s : List Char) (k : ℤ) (c : Char) (h : c ∈ padScale s k) :
    c = '.' ∨ c = '0' ∨ c ∈ s := by
  unfold padScale at h
  split at h
  · set s1 := if s.length ≤ k.toNat then List.replicate (k.toNat - s.length + 1) '0' ++ s else s
      with hs1
    have hsub : c ∈ s1 → c = '0' ∨ c ∈ s := by
      intro hc
      rw [hs1] at hc
      split at hc
      · rcases List.mem_append.mp hc with h2 | h2
        · exact Or.inl (List.eq_of_mem_replicate h2)
        · exact Or.inr h2
      · exact Or.inr hc
    rcases List.mem_append.mp h with h1 | h1
    · exact Or.inr (hsub (List.take_subset _ _ h1))
    · rcases List.mem_cons.mp h1 with rfl | h1
      · exact Or.inl rfl
      · exact Or.inr (hsub (List.drop_subset _ _ h1))
  · exact Or.inr (Or.inr h)

/-- The point-inserted digit string never starts with a minus sign. -/
theorem padScale_digitsStr_head (ds : List ℕ) (k : ℤ) :
    (padScale (digitsStr ds) k).head? ≠ some '-' := by
  cases hp : padScale (digitsStr ds) k with
  | nil => simp
  | cons a t =>
    have ha : a ∈ padScale (digitsStr ds) k := by
      rw [hp]; exact List.mem_cons_self ..
    intro hcontra
    have : a = '-' := by simpa [hp] using hcontra
    subst this
    rcases mem_padScale _ _ _ ha with h | h | h
    · exact absurd h (by decide)
    · exact absurd h (by decide)
    · obtain ⟨d, _, hcd⟩ := mem_digitsStr ds _ h
      exact isDig_ne_minus _ (mem_pyNatRepr_isDig d _ hcd) rfl

/-- Closed form of the packed decoder on non-empty input: a sign factor
times the magnitude of the point-inserted digit string. -/
theorem decode_packed_decimal_eq (data : List ℕ) (scale : ℤ) (h : data ≠ []) :
    decode_packed_decimal data scale =
      (if packedSignNibble data = 13 then (-1 : ℚ) else 1) *
        decimalMag (padScale (digitsStr (packedDigits data)) scale) := by
  unfold decode_packed_decimal
  rw [if_neg h]
  by_cases hs : packedSignNibble data = 13
  · rw [if_pos hs, if_pos hs]
    unfold decimalOfString
    rw [if_pos (by simp)]
    simp
  · rw [if_neg hs, if_neg hs, decimalOfString_of_head _ (padScale_digitsStr_head _ _), one_mul]

/-- Closed form of the zoned decoder on non-empty input: the magnitude
of the point-inserted digit string times a sign factor. -/
theorem decode_zoned_decimal_eq (data : List ℕ) (scale : ℤ) (h : data ≠ []) :
    decode_zoned_decimal data scale =
      decimalMag (padScale (digitsStr (zonedDigits data)) scale) *
        (if zonedZone data = 13 then (-1 : ℚ) else 1) := by
  unfold decode_zoned_decimal
  rw [if_neg h, decimalOfString_of_head _ (padScale_digitsStr_head _ _)]

/-- Evaluation helper: the magnitude of a concrete decimal string. -/
theorem decimalMag_eval (s : List Char) (m k : ℕ)
    (h1 : natOfDecChars (s.takeWhile (fun c => c ≠ '.') ++ (s.dropWhile (fun c => c ≠ '.')).drop 1) = m)
    (h2 : ((s.dropWhile (fun c => c ≠ '.')).drop 1).length = k) :
    decimalMag s = (m : ℚ) / 10 ^ k := by
  unfold decimalMag
  rw [h1, h2]

example : decode_packed_decimal [0x12, 0x34, 0x5C] 2 = 12345 / 100 := by
  rw [decode_packed_decimal_eq _ _ (by decide)]
  have h : padScale (digitsStr (packedDigits [0x12, 0x34, 0x5C])) 2
      = ['1', '2', '3', '.', '4', '5'] := by decide
  have hs : packedSignNibble [0x12, 0x34, 0x5C] = 12 := by decide
  rw [h, hs, decimalMag_eval _ 12345 2 (by decide) (by decide)]
  norm_num

example : decode_packed_decimal [0x12, 0x3C] 0 = 123 := by
  rw [decode_packed_decimal_eq _ _ (by decide)]
  have h : padScale (digitsStr (packedDigits [0x12, 0x3C])) 0 = ['1', '2', '3'] := by decide
  have hs : packedSignNibble [0x12, 0x3C] = 12 := by decide
  rw [h, hs, decimalMag_eval _ 123 0 (by decide) (by decide)]
  norm_num

example : decode_zoned_decimal [0xF1, 0xF2, 0xD3] 0 = -123 := by
  rw [decode_zoned_decimal_eq _ _ (by decide)]
  have h : padScale (digitsStr (zonedDigits [0xF1, 0xF2, 0xD3])) 0 = ['1', '2', '3'] := by decide
  have hz : zonedZone [0xF1, 0xF2, 0xD3] = 13 := by decide
  rw [h, hz, decimalMag_eval _ 123 0 (by decide) (by decide)]
  norm_num

example : decode_zoned_decimal [0xD0] 0 = 0 := by
  rw [decode_zoned_decimal_eq _ _ (by decide)]
  have h : padScale (digitsStr (zonedDigits [0xD0])) 0 = ['0'] := by decide
  rw [h, decimalMag_eval _ 0 0 (by decide) (by decide)]
  norm_num

example : decode_binary [0xFF, 0xFE] true = -2 := by decide

/-! ### converters/vsam_types.py — VSAMTypeConverter -/

/-- Decidable equality for Except values, used to evaluate parser
results on concrete inputs. -/
instance {ε α : Type} [DecidableEq ε] [DecidableEq α] : DecidableEq (Except ε α) := fun x y =>
  match x, y with
  | Except.ok a, Except.ok b =>
    if h : a = b then isTrue (congrArg Except.ok h)
    else isFalse (fun hh => h (Except.ok.inj hh))
  | Except.ok _, Except.error _ => isFalse (fun hh => Except.noConfusion hh)
  | Except.error _, Except.ok _ => isFalse (fun hh => Except.noConfusion hh)
  | Except.error e, Except.error f =>
    if h : e = f then isTrue (congrArg Except.error h)
    else isFalse (fun hh => h (Except.error.inj hh))

/-- COBOL USAGE clause kinds (enum CobolUsage). -/
inductive CobolUsage where
  | DISPLAY | COMP | COMP_1 | COMP_2 | COMP_3 | COMP_4 | COMP_5
deriving DecidableEq, Repr

/-- COBOL PIC clause base kinds (enum CobolPicType). -/
inductive CobolPicType where
  | ALPHANUMERIC | ALPHABETIC | NUMERIC | SIGNED_NUMERIC
deriving DecidableEq, Repr

/-- Parsed representation of a COBOL PIC clause (dataclass
ParsedPicClause). -/
structure ParsedPicClause where
  pic_type : CobolPicType
  integer_digits : ℕ
  decimal_digits : ℕ
  usage : CobolUsage
  total_length : ℕ
  is_signed : Bool
deriving DecidableEq, Repr

/-- Total number of digits (integer plus decimal). -/
def ParsedPicClause.total_digits (p : ParsedPicClause) : ℕ :=
  p.integer_digits + p.decimal_digits

/-- Whether this is an alphanumeric field. -/
def ParsedPicClause.is_alphanumeric (p : ParsedPicClause) : Bool :=
  p.pic_type = CobolPicType.ALPHANUMERIC || p.pic_type = CobolPicType.ALPHABETIC

/-- Whether this is a packed decimal field (COMP-3). -/
def ParsedPicClause.is_packed (p : ParsedPicClause) : Bool :=
  p.usage = CobolUsage.COMP_3

/-- Whether this is a binary field (COMP, COMP-4, COMP-5). -/
def ParsedPicClause.is_binary (p : ParsedPicClause) : Bool :=
  p.usage = CobolUsage.COMP || p.usage = CobolUsage.COMP_4 || p.usage = CobolUsage.COMP_5

/-- Match a literal run of characters at the front of the input,
returning the remainder (a regex literal component). -/
def pLit : List Char → List Char → Option (List Char)
  | [], s => some s
  | p :: ps, c :: cs => if c = p then pLit ps cs else none
  | _ :: _, [] => none

/-- Match one or more whitespace characters (the regex component
backslash-s followed by plus). -/
def pWs1 : List Char → Option (List Char)
  | c :: cs => if pyIsWs c then some (cs.dropWhile pyIsWs) else none
  | [] => none

/-- Match one or more decimal digits, returning the captured digits and
the remainder (the regex component backslash-d followed by plus). -/
def pDigits1 : List Char → Option (List Char × List Char)
  | c :: cs =>
    if isDig c then some (c :: cs.takeWhile isDig, cs.dropWhile isDig)
    else none
  | [] => none

/-- Captured groups of VSAMTypeConverter.PIC_PATTERN, the standard
pattern PIC (S)? ([XA9]) (length) (V decimal)? (COMP)? (OCCURS n)?. -/
structure PicGroups where
  sign : Bool
  baseType : Char
  lengthStr : List Char
  decimalParen : Option (List Char)
  decimalInline : Option (List Char)
  comp : Option (List Char)
  occurs : Option (List Char)
deriving DecidableEq, Repr

/-- Alternative 2 of the optional V group of PIC_PATTERN: V followed by
inline digits. -/
def vInline (orig rest : List Char) : Option (List Char) × Option (List Char) × List Char :=
  match pDigits1 rest with
  | some (ds, r) => (none, some ds, r)
  | none => (none, none, orig)

/-- The optional V group of PIC_PATTERN: V9(n) captures group 4, or V
followed by inline digits captures group 5; if neither alternative
matches the group is skipped. -/
def matchVGroup (s : List Char) : Option (List Char) × Option (List Char) × List Char :=
  match s with
  | 'V' :: rest =>
    match rest with
    | '9' :: '(' :: r2 =>
      match pDigits1 r2 with
      | some (ds, ')' :: r4) => (some ds, none, r4)
      | _ => vInline s rest
    | _ => vInline s rest
  | _ => (none, none, s)

/-- The optional COMP group: whitespace then COMP with an optional dash
and a digit 1-5; all-or-nothing. -/
def matchCompGroup (s : List Char) : Option (List Char) × List Char :=
  match pWs1 s with
  | none => (none, s)
  | some r =>
    match pLit ['C', 'O', 'M', 'P'] r with
    | none => (none, s)
    | some r2 =>
      match r2 with
      | '-' :: d :: r3 =>
        if '1' ≤ d && d ≤ '5' then (some ['C', 'O', 'M', 'P', '-', d], r3)
        else (some ['C', 'O', 'M', 'P'], '-' :: d :: r3)
      | _ => (some ['C', 'O', 'M', 'P'], r2)

/-- The optional OCCURS group: whitespace, OCCURS, whitespace, digits;
all-or-nothing. -/
def matchOccursGroup (s : List Char) : Option (List Char) × List Char :=
  match pWs1 s with
  | none => (none, s)
  | some r =>
    match pLit ['O', 'C', 'C', 'U', 'R', 'S'] r with
    | none => (none, s)
    | some r2 =>
      match pWs1 r2 with
      | none => (none, s)
      | some r3 =>
        match pDigits1 r3 with
        | some (ds, r4) => (some ds, r4)
        | none => (none, s)

/-- Prefix match of VSAMTypeConverter.PIC_PATTERN (re.match semantics:
anchored at the start, trailing text ignored). -/
def matchPicPattern (s : List Char) : Option PicGroups :=
  match pLit ['P', 'I', 'C'] s with
  | none => none
  | some s1 =>
  match pWs1 s1 with
  | none => none
  | some s2 =>
  let signAndRest : Bool × List Char :=
    match s2 with
    | 'S' :: r => (true, r)
    | _ => (false, s2)
  match signAndRest.2 with
  | c :: s4 =>
    if c = 'X' || c = 'A' || c = '9' then
      match s4 with
      | '(' :: s5 =>
        match pDigits1 s5 with
        | some (len, ')' :: s7) =>
          match matchVGroup s7 with
          | (dp, di, s8) =>
            match matchCompGroup s8 with
            | (comp, s9) =>
              match matchOccursGroup s9 with
              | (occ, _) => some ⟨signAndRest.1, c, len, dp, di, comp, occ⟩
        | _ => none
      | _ => none
    else none
  | [] => none

/-- Captured groups of VSAMTypeConverter.PIC_INLINE_PATTERN, the
alternate pattern PIC (S)? ([XA9]+) (V 9+)? (COMP)?. -/
structure PicInlineGroups where
  sign : Bool
  typeChars : List Char
  decimalChars : Option (List Char)
  comp : Option (List Char)
deriving DecidableEq, Repr

/-- The optional V group of PIC_INLINE_PATTERN: V followed by one or
more 9 characters; all-or-nothing. -/
def vNines (s : List Char) : Option (List Char) × List Char :=
  match s with
  | 'V' :: '9' :: r =>
    (some ('9' :: r.takeWhile (fun x => x = '9')), r.dropWhile (fun x => x = '9'))
  | _ => (none, s)

/-- Prefix match of VSAMTypeConverter.PIC_INLINE_PATTERN. -/
def matchPicInline (s : List Char) : Option PicInlineGroups :=
  match pLit ['P', 'I', 'C'] s with
  | none => none
  | some s1 =>
  match pWs1 s1 with
  | none => none
  | some s2 =>
  let signAndRest : Bool × List Char :=
    match s2 with
    | 'S' :: r => (true, r)
    | _ => (false, s2)
  match signAndRest.2 with
  | c :: s4 =>
    if c = 'X' || c = 'A' || c = '9' then
      let cls := fun x => x = 'X' || x = 'A' || x = '9'
      let tcs := c :: s4.takeWhile cls
      let s5 := s4.dropWhile cls
      match vNines s5 with
      | (dec, s6) =>
        match matchCompGroup s6 with
        | (comp, _) => some ⟨signAndRest.1, tcs, dec, comp⟩
    else none
  | [] => none

/-- The usage_map dictionary lookup of parse_pic_clause, with DISPLAY as
the .get default. -/
def usageMap (c : List Char) : CobolUsage :=
  if c = "COMP".toList then CobolUsage.COMP
  else if c = "COMP-1".toList then CobolUsage.COMP_1
  else if c = "COMP-2".toList then CobolUsage.COMP_2
  else if c = "COMP-3".toList then CobolUsage.COMP_3
  else if c = "COMP-4".toList then CobolUsage.COMP_4
  else if c = "COMP-5".toList then CobolUsage.COMP_5
  else CobolUsage.DISPLAY

/-- The shared tail of parse_pic_clause: determine the PIC type, the
usage, the storage length, and the sign flag from the matched groups. -/
def finishParse (sign : Bool) (baseType : Char) (integerDigits decimalDigits : ℕ)
    (comp : Option (List Char)) : ParsedPicClause :=
  let picType :=
    if baseType = 'X' then CobolPicType.ALPHANUMERIC
    else if baseType = 'A' then CobolPicType.ALPHABETIC
    else if sign then CobolPicType.SIGNED_NUMERIC
    else CobolPicType.NUMERIC
  let usage :=
    match comp with
    | some c => usageMap (toUpperList c)
    | none => CobolUsage.DISPLAY
  let totalDigits := integerDigits + decimalDigits
  let totalLength :=
    if usage = CobolUsage.DISPLAY then totalDigits
    else if usage = CobolUsage.COMP_3 then (totalDigits + 1) / 2 + 1
    else if usage = CobolUsage.COMP ∨ usage = CobolUsage.COMP_4 ∨ usage = CobolUsage.COMP_5 then
      if totalDigits ≤ 4 then 2 else if totalDigits ≤ 9 then 4 else 8
    else if usage = CobolUsage.COMP_1 then 4
    else if usage = CobolUsage.COMP_2 then 8
    else integerDigits
  { pic_type := picType
    integer_digits := integerDigits
    decimal_digits := decimalDigits
    usage := usage
    total_length := totalLength
    is_signed := sign || decide (picType = CobolPicType.SIGNED_NUMERIC) }

/-- VSAMTypeConverter.parse_pic_clause: strip and upper-case, try the
standard pattern, then the inline pattern, else raise ValueError
(modelled as Except.error with the message text). -/
def parse_pic_clause (picClause : List Char) : Except (List Char) ParsedPicClause :=
  let pc := toUpperList (pyStrip picClause)
  match matchPicPattern pc with
  | some g =>
    Except.ok (finishParse g.sign g.baseType (natOfDecChars g.lengthStr)
      (natOfDecChars ((g.decimalParen.orElse fun _ => g.decimalInline).getD []))
      g.comp)
  | none =>
    match matchPicInline pc with
    | some g =>
      Except.ok (finishParse g.sign (g.typeChars.headD '9') g.typeChars.length
        (match g.decimalChars with
         | some d => d.length
         | none => 0)
        g.comp)
    | none => Except.error ("Unable to parse PIC clause: ".toList ++ pc)

/-- PySpark data types reachable from the converter. -/
inductive SparkType where
  | StringType
  | ShortType
  | IntegerType
  | LongType
  | FloatType
  | DoubleType
  | DecimalType (precision scale : ℕ)
deriving DecidableEq, Repr

/-- VSAMTypeConverter._get_binary_type. -/
def getBinaryType (digits : ℕ) : SparkType :=
  if digits ≤ 4 then SparkType.ShortType
  else if digits ≤ 9 then SparkType.IntegerType
  else SparkType.LongType

/-- VSAMTypeConverter._get_integer_type. -/
def getIntegerType (digits : ℕ) : SparkType :=
  if digits ≤ 4 then SparkType.ShortType
  else if digits ≤ 9 then SparkType.IntegerType
  else SparkType.LongType

/-- VSAMTypeConverter._map_to_spark_type. -/
def mapToSparkType (p : ParsedPicClause) : SparkType :=
  if p.is_alphanumeric then SparkType.StringType
  else if p.usage = CobolUsage.COMP_1 then SparkType.FloatType
  else if p.usage = CobolUsage.COMP_2 then SparkType.DoubleType
  else if p.is_packed || decide (0 < p.decimal_digits) then
    SparkType.DecimalType p.total_digits p.decimal_digits
  else if p.is_binary then getBinaryType p.total_digits
  else getIntegerType p.total_digits

/-- VSAMTypeConverter.convert: parse the PIC clause and map it to a
Spark type; an unparseable clause falls back to StringType (the
try-except around parse_pic_clause). -/
def convert (picClause : List Char) : SparkType :=
  match parse_pic_clause picClause with
  | Except.error _ => SparkType.StringType
  | Except.ok p => mapToSparkType p

/-- VSAMTypeConverter.get_storage_bytes: the total_length of the parsed
clause; a parse failure propagates (no try-except here). -/
def get_storage_bytes (picClause : List Char) : Except (List Char) ℕ :=
  (parse_pic_clause picClause).map (fun p => p.total_length)

example : convert "PIC X(25)".toList = SparkType.StringType := by decide
example : parse_pic_clause "PIC S9(7)V99 COMP-3".toList =
    Except.ok ⟨CobolPicType.SIGNED_NUMERIC, 7, 99, CobolUsage.COMP_3, 54, true⟩ := by decide
example : convert "PIC S9(7)V99 COMP-3".toList = SparkType.DecimalType 106 99 := by decide
example : parse_pic_clause "PIC 9(3) COMP-3".toList =
    Except.ok ⟨CobolPicType.NUMERIC, 3, 0, CobolUsage.COMP_3, 3, false⟩ := by decide
example : parse_pic_clause "PIC S9(5)V9(2)".toList =
    Except.ok ⟨CobolPicType.SIGNED_NUMERIC, 5, 2, CobolUsage.DISPLAY, 7, true⟩ := by decide
example : convert "PIC 999V99".toList = SparkType.DecimalType 5 2 := by decide
example : convert "HELLO".toList = SparkType.StringType := by decide
example : parse_pic_clause "PIC 9(8) COMP".toList =
    Except.ok ⟨CobolPicType.NUMERIC, 8, 0, CobolUsage.COMP, 4, false⟩ := by decide

/-! ### parsers/copybook_parser.py — CopybookParser -/

/-- A field definition from a COBOL copybook (dataclass CopybookField). -/
structure CopybookField where
  name : List Char
  level : ℕ
  pic_clause : Option (List Char)
  length : ℕ
  offset : ℕ
  is_filler : Bool
  is_group : Bool
  occurs : ℕ
  redefines : Option (List Char)
  parent : Option (List Char)
  children : List (List Char)
deriving DecidableEq, Repr

/-- Whether this is an elementary item (has a PIC clause and is not a
group). -/
def CopybookField.is_elementary (f : CopybookField) : Bool :=
  f.pic_clause.isSome && !f.is_group

/-- Total length including OCCURS. -/
def CopybookField.total_length (f : CopybookField) : ℕ := f.length * f.occurs

/-- Python str.rstrip with the single-character argument full stop. -/
def rstripDot (s : List Char) : List Char :=
  (s.reverse.dropWhile (fun c => c = '.')).reverse

/-- Case-insensitive literal match (regex with re.IGNORECASE); the
pattern is given upper-case. -/
def pLitCI : List Char → List Char → Option (List Char)
  | [], s => some s
  | p :: ps, c :: cs => if c.toUpper = p then pLitCI ps cs else none
  | _ :: _, [] => none

/-- One or more characters of a class, returning the captured run and
the remainder. -/
def many1CI (p : Char → Bool) : List Char → Option (List Char × List Char)
  | c :: cs => if p c then some (c :: cs.takeWhile p, cs.dropWhile p) else none
  | [] => none

/-- re.search semantics: try the anchored matcher at every start
position, left to right. -/
def searchPos {α : Type} (m : List Char → Option α) : List Char → Option α
  | [] => m []
  | c :: cs =>
    match m (c :: cs) with
    | some r => some r
    | none => searchPos m cs

/-- A parenthesised digit run, captured with its parentheses. -/
def parenDigits : List Char → Option (List Char × List Char)
  | '(' :: r =>
    match pDigits1 r with
    | some (ds, ')' :: r2) => some ('(' :: ds ++ [')'], r2)
    | _ => none
  | _ => none

/-- Anchored match of CopybookParser.REDEFINES_PATTERN, capturing the
target name. -/
def matchRedefinesAt (s : List Char) : Option (List Char) :=
  match pLitCI "REDEFINES".toList s with
  | none => none
  | some r =>
    match pWs1 r with
    | none => none
    | some r2 =>
      match many1CI (fun c => c.isAlphanum || c = '_' || c = '-') r2 with
      | some (name, _) => some name
      | none => none

/-- Anchored match of CopybookParser.OCCURS_PATTERN, capturing the
count digits. -/
def matchOccursAt (s : List Char) : Option (List Char) :=
  match pLitCI "OCCURS".toList s with
  | none => none
  | some r =>
    match pWs1 r with
    | none => none
    | some r2 =>
      match pDigits1 r2 with
      | some (ds, _) => some ds
      | none => none

/-- Anchored match of CopybookParser.COMP_PATTERN, capturing the
matched text in its original case. -/
def matchCompAt (s : List Char) : Option (List Char) :=
  match pLitCI "COMP".toList s with
  | none => none
  | some r =>
    match r with
    | '-' :: d :: _ => if '1' ≤ d && d ≤ '5' then some (s.take 6) else some (s.take 4)
    | _ => some (s.take 4)

/-- Anchored match of CopybookParser.PIC_PATTERN: PIC or PICTURE,
whitespace, an optional sign character, the base run with an optional
parenthesised length, and an optional V run with an optional
parenthesised length.  Captures keep their original case. -/
def matchCbPicAt (s : List Char) : Option (Option Char × List Char × Option (List Char)) :=
  match pLitCI "PIC".toList s with
  | none => none
  | some r0 =>
  let r1 :=
    match pLitCI "TURE".toList r0 with
    | some r => r
    | none => r0
  match pWs1 r1 with
  | none => none
  | some r2 =>
  let sr : Option Char × List Char :=
    match r2 with
    | c :: r3 => if c.toUpper = 'S' then (some c, r3) else (none, r2)
    | [] => (none, r2)
  match many1CI (fun c => c.toUpper = 'X' || c.toUpper = 'A' || c = '9') sr.2 with
  | none => none
  | some (run, r4) =>
    let g2r : List Char × List Char :=
      match parenDigits r4 with
      | some (p, r5) => (run ++ p, r5)
      | none => (run, r4)
    let g3 : Option (List Char) :=
      match g2r.2 with
      | c :: r6 =>
        if c.toUpper = 'V' then
          match many1CI (fun x => x = '9') r6 with
          | some (nines, r7) =>
            match parenDigits r7 with
            | some (p, _) => some (nines ++ p)
            | none => some nines
          | none => none
        else none
      | [] => none
    some (sr.1, g2r.1, g3)

/-- Anchored match of CopybookParser.LEVEL_PATTERN: optional leading
whitespace, exactly two digits, whitespace, a name of word characters
and hyphens, and the rest of the line. -/
def matchLevelLine (line : List Char) : Option (ℕ × List Char × List Char) :=
  match line.dropWhile pyIsWs with
  | a :: b :: r =>
    if isDig a && isDig b then
      match pWs1 r with
      | none => none
      | some r2 =>
        match many1CI (fun c => c.isAlphanum || c = '_' || c = '-') r2 with
        | some (name, rest) => some (natOfDecChars [a, b], name, rest)
        | none => none
    else none
  | _ => none

/-- The per-line flush step of CopybookParser._clean_content after the
column handling: flush any pending continuation, cut an inline comment,
strip, and either emit the statement (ends with a period) or hold it as
the pending continuation. -/
def cbCleanTail (lines : List (List Char)) (current lc0 : List Char) :
    List (List Char) × List Char :=
  let flushed : List (List Char) × List Char :=
    if current ≠ [] then (lines ++ [current], []) else (lines, current)
  let lc1 := if lc0.contains '*' then lc0.takeWhile (fun c => c ≠ '*') else lc0
  let lc := pyStrip lc1
  if lc ≠ [] then
    if lc.getLast? = some '.' then (flushed.1 ++ [lc], flushed.2)
    else (flushed.1, lc)
  else flushed

/-- One line of CopybookParser._clean_content: skip blank lines, apply
the fixed-column convention for lines of at least seven characters
(column seven is the indicator: asterisk comments, hyphen
continuations; content is columns eight to seventy-two). -/
def cbCleanLine (st : List (List Char) × List Char) (line : List Char) :
    List (List Char) × List Char :=
  let lines := st.1
  let current := st.2
  if pyStrip line = [] then (lines, current)
  else if 7 ≤ line.length then
    let indicator := (line.drop 6).headD ' '
    if indicator = '*' then (lines, current)
    else if indicator = '-' then (lines, pyRstrip current ++ pyLstrip (line.drop 7))
    else
      let lc := if 7 < line.length then (line.drop 7).take 65 else []
      cbCleanTail lines current lc
  else cbCleanTail lines current line

/-- CopybookParser._clean_content: split into lines, process each, and
flush a trailing pending statement. -/
def cbCleanContent (content : List Char) : List (List Char) :=
  let st := (splitOnChar '\n' content).foldl cbCleanLine ([], [])
  if st.2 ≠ [] then st.1 ++ [st.2] else st.1

/-- CopybookParser._parse_line: strip trailing periods, match the level
pattern, discard levels 66 and 88, and extract FILLER, REDEFINES,
OCCURS, and a reconstructed PIC clause with an optional COMP suffix. -/
def cbParseLine (line0 : List Char) : Option CopybookField :=
  let line := rstripDot line0
  match matchLevelLine line with
  | none => none
  | some (level, nameRaw, rest) =>
    if level = 66 ∨ level = 88 then none
    else
      let name := toUpperList nameRaw
      let is_filler := name = "FILLER".toList
      let redefines := (searchPos matchRedefinesAt rest).map toUpperList
      let occurs :=
        match searchPos matchOccursAt rest with
        | some ds => natOfDecChars ds
        | none => 1
      let pic_clause :=
        match searchPos matchCbPicAt rest with
        | some (sign, g2, g3) =>
          some ("PIC ".toList
            ++ (match sign with
                | some c => [c]
                | none => [])
            ++ g2
            ++ (match g3 with
                | some d => 'V' :: d
                | none => [])
            ++ (match searchPos matchCompAt rest with
                | some ctext => ' ' :: toUpperList ctext
                | none => []))
        | none => none
      some { name := name
             level := level
             pic_clause := pic_clause
             length := 0
             offset := 0
             is_filler := is_filler
             is_group := pic_clause.isNone && !is_filler
             occurs := occurs
             redefines := redefines
             parent := none
             children := [] }

/-- CopybookParser._calculate_length: zero for a missing or empty PIC
clause, otherwise the storage bytes of the clause (a parse failure
propagates). -/
def cbCalculateLength : Option (List Char) → Except (List Char) ℕ
  | none => Except.ok 0
  | some [] => Except.ok 0
  | some pc => get_storage_bytes pc

/-- State of the parse_content loop: the emitted fields, the layout
cursor, and the group stack of level, name, offset triples (head is the
top). -/
structure CbState where
  fields : List CopybookField
  cur : ℕ
  stack : List (ℕ × List Char × ℕ)

/-- The reversed-order search for the REDEFINES target: the last
previously emitted field with the given name. -/
def findRedef (fields : List CopybookField) (r : List Char) : Option CopybookField :=
  fields.reverse.find? (fun f => decide (f.name = r))

/-- Append a child name to the first field with the given name in the
list. -/
def addChildFirst : List CopybookField → List Char → List Char → List CopybookField
  | [], _, _ => []
  | f :: fs, pname, cname =>
    if f.name = pname then { f with children := f.children ++ [cname] } :: fs
    else f :: addChildFirst fs pname cname

/-- Append a child name to the last field with the given name (the
reversed-order search of parse_content). -/
def addChildToLast (fields : List CopybookField) (pname cname : List Char) :
    List CopybookField :=
  (addChildFirst fields.reverse pname cname).reverse

/-- One field of CopybookParser.parse_content: pop the stack to the
enclosing group, record the parent, set the offset and length of an
elementary item and advance the cursor by its total length, then
overlay a REDEFINES field on its target offset (the cursor advance
already happened), record the child, push a group, and append the
field. -/
def cbStep (ignoreFillers : Bool) (st : CbState) (line : List Char) :
    Except (List Char) CbState :=
  match cbParseLine line with
  | none => Except.ok st
  | some f0 =>
    let stack := st.stack.dropWhile (fun t => f0.level ≤ t.1)
    let f1 :=
      match stack with
      | t :: _ =>
        let fp := { f0 with parent := some t.2.1 }
        if fp.is_group then { fp with offset := st.cur } else fp
      | [] => { f0 with offset := st.cur }
    match (if f1.is_elementary then cbCalculateLength f1.pic_clause else Except.ok 0) with
    | Except.error e => Except.error e
    | Except.ok len =>
      let f2 :=
        if f1.is_elementary then { f1 with offset := st.cur, length := len } else f1
      let cur := if f1.is_elementary then st.cur + f2.total_length else st.cur
      let f3 :=
        match f2.redefines with
        | some r =>
          match findRedef st.fields r with
          | some g => { f2 with offset := g.offset }
          | none => f2
        | none => f2
      let fields1 :=
        match stack with
        | t :: _ => addChildToLast st.fields t.2.1 f3.name
        | [] => st.fields
      let stack2 := if f3.is_group then (f3.level, f3.name, f3.offset) :: stack else stack
      let fields2 := if ignoreFillers && f3.is_filler then fields1 else fields1 ++ [f3]
      Except.ok ⟨fields2, cur, stack2⟩

/-- CopybookParser.parse_content: clean the content into statements and
fold the per-field step over them. -/
def cb_parse_content (ignoreFillers : Bool) (content : List Char) :
    Except (List Char) (List CopybookField) :=
  match (cbCleanContent content).foldlM (cbStep ignoreFillers) ⟨[], 0, []⟩ with
  | Except.error e => Except.error e
  | Except.ok st => Except.ok st.fields

/-- CopybookParser.get_record_length: the maximum end offset over
elementary fields. -/
def cb_get_record_length (fields : List CopybookField) : ℕ :=
  fields.foldl (fun m f => if f.is_elementary then max m (f.offset + f.total_length) else m) 0

/-- The S4 copybook of the spec, written in the fixed-column convention
the parser expects: columns one to six blank, column seven blank
indicator, content from column eight. -/
def s4Copybook : List Char :=
  ("       01 REC.\n       05 A PIC X(4).\n       05 B PIC X(4).\n       05 C REDEFINES B PIC 9(4).\n       05 D PIC X(2).\n").toList

example : cbCleanContent s4Copybook =
    ["01 REC.".toList, "05 A PIC X(4).".toList, "05 B PIC X(4).".toList,
     "05 C REDEFINES B PIC 9(4).".toList, "05 D PIC X(2).".toList] := by decide

example : cb_parse_content false s4Copybook = Except.ok
    [{ name := "REC".toList, level := 1, pic_clause := none, length := 0, offset := 0,
       is_filler := false, is_group := true, occurs := 1, redefines := none, parent := none,
       children := ["A".toList, "B".toList, "C".toList, "D".toList] },
     { name := "A".toList, level := 5, pic_clause := some "PIC X(4)".toList, length := 4,
       offset := 0, is_filler := false, is_group := false, occurs := 1, redefines := none,
       parent := some "REC".toList, children := [] },
     { name := "B".toList, level := 5, pic_clause := some "PIC X(4)".toList, length := 4,
       offset := 4, is_filler := false, is_group := false, occurs := 1, redefines := none,
       parent := some "REC".toList, children := [] },
     { name := "C".toList, level := 5, pic_clause := some "PIC 9(4)".toList, length := 4,
       offset := 4, is_filler := false, is_group := false, occurs := 1,
       redefines := some "B".toList, parent := some "REC".toList, children := [] },
     { name := "D".toList, level := 5, pic_clause := some "PIC X(2)".toList, length := 2,
       offset := 12, is_filler := false, is_group := false, occurs := 1, redefines := none,
       parent := some "REC".toList, children := [] }] := by decide

example : (cb_parse_content false s4Copybook).map cb_get_record_length = Except.ok 14 := by
  decide

/-! ### parsers/ddl_parser.py — DDLParser -/

/-- A column definition from a DB2 DDL statement (dataclass DDLColumn). -/
structure DDLColumn where
  name : List Char
  data_type : List Char
  nullable : Bool
  default_value : Option (List Char)
  is_primary_key : Bool
  foreign_key_ref : Option (List Char)
deriving DecidableEq, Repr

/-- A table definition from a DB2 DDL statement (dataclass DDLTable);
the foreign-keys dictionary is an insertion-ordered association list. -/
structure DDLTable where
  schema : List Char
  name : List Char
  columns : List DDLColumn
  primary_key : List (List Char)
  foreign_keys : List (List Char × List Char)
deriving DecidableEq, Repr

/-- Cut a line at the first occurrence of two consecutive hyphens (the
SQL line-comment removal). -/
def cutAtDashDash : List Char → List Char
  | '-' :: '-' :: _ => []
  | c :: cs => c :: cutAtDashDash cs
  | [] => []

/-- Join pieces with a newline between them. -/
def joinWithNl : List (List Char) → List Char
  | [] => []
  | [g] => g
  | g :: g2 :: gs => g ++ '\n' :: joinWithNl (g2 :: gs)

/-- Join pieces with a single space between them. -/
def joinWithSpace : List (List Char) → List Char
  | [] => []
  | [g] => g
  | g :: g2 :: gs => g ++ ' ' :: joinWithSpace (g2 :: gs)

/-- Find the closing star-slash of a block comment, returning the
remainder after it. -/
def findBlockClose : List Char → Option (List Char)
  | '*' :: '/' :: r => some r
  | _ :: r => findBlockClose r
  | [] => none

/-- Fuelled removal of non-greedy slash-star block comments, left to
right; an unclosed opener is kept verbatim. -/
def rbcAux : ℕ → List Char → List Char
  | 0, s => s
  | fuel + 1, s =>
    match s with
    | '/' :: '*' :: rest =>
      match findBlockClose rest with
      | some r => rbcAux fuel r
      | none => '/' :: '*' :: rbcAux fuel rest
    | c :: rest => c :: rbcAux fuel rest
    | [] => []

/-- Remove slash-star block comments. -/
def removeBlockComments (s : List Char) : List Char := rbcAux s.length s

/-- Python str.split with no argument: split on whitespace runs,
dropping empty pieces. -/
def pySplitWs (s : List Char) : List (List Char) :=
  (s.foldr
      (fun c acc =>
        if pyIsWs c then [] :: acc
        else
          match acc with
          | [] => [[c]]
          | g :: gs => (c :: g) :: gs)
      []).filter (fun g => !g.isEmpty)

/-- DDLParser._clean_content: strip line comments and block comments,
then normalise all whitespace runs to single spaces. -/
def ddlCleanContent (content : List Char) : List Char :=
  joinWithSpace (pySplitWs (removeBlockComments
    (joinWithNl ((splitOnChar '\n' content).map cutAtDashDash))))

/-- A word-character run (the regex class backslash-w, ASCII). -/
def pWord1 (s : List Char) : Option (List Char × List Char) :=
  many1CI (fun c => c.isAlphanum || c = '_') s

/-- The content before the last closing parenthesis (the greedy
dot-star of CREATE_TABLE_PATTERN followed by a closing parenthesis). -/
def beforeLastClose (s : List Char) : Option (List Char) :=
  match s.reverse.dropWhile (fun c => c ≠ ')') with
  | ')' :: r => some r.reverse
  | _ => none

/-- Anchored match of DDLParser.CREATE_TABLE_PATTERN: CREATE TABLE, an
optional schema qualifier, the table name, and the parenthesised body
up to the last closing parenthesis. -/
def ctMatchAt (s : List Char) : Option (Option (List Char) × List Char × List Char) :=
  match pLitCI "CREATE".toList s with
  | none => none
  | some r0 =>
  match pWs1 r0 with
  | none => none
  | some r1 =>
  match pLitCI "TABLE".toList r1 with
  | none => none
  | some r2 =>
  match pWs1 r2 with
  | none => none
  | some r3 =>
  let schemaAndRest : Option (List Char) × List Char :=
    match pWord1 r3 with
    | some (w, '.' :: r4) => (some w, r4)
    | _ => (none, r3)
  match pWord1 schemaAndRest.2 with
  | none => none
  | some (tname, r5) =>
    match r5.dropWhile pyIsWs with
    | '(' :: r7 =>
      match beforeLastClose r7 with
      | some body => some (schemaAndRest.1, tname, body)
      | none => none
    | _ => none

/-- DDLParser._split_columns: split at commas outside parentheses,
stripping each piece (also emitted when empty, as in the source). -/
def splitColsCore : List Char → ℤ → List Char → List (List Char)
  | [], _, cur => if pyStrip cur.reverse ≠ [] then [pyStrip cur.reverse] else []
  | c :: cs, depth, cur =>
    if c = '(' then splitColsCore cs (depth + 1) (c :: cur)
    else if c = ')' then splitColsCore cs (depth - 1) (c :: cur)
    else if c = ',' then
      if depth = 0 then pyStrip cur.reverse :: splitColsCore cs depth []
      else splitColsCore cs depth (c :: cur)
    else splitColsCore cs depth (c :: cur)

/-- DDLParser._split_columns on a body string. -/
def ddlSplitColumns (s : List Char) : List (List Char) := splitColsCore s 0 []

/-- Anchored match of DDLParser.PRIMARY_KEY_PATTERN, capturing the
column list between the parentheses. -/
def ddlPkMatch (s : List Char) : Option (List Char) :=
  match pLitCI "PRIMARY".toList s with
  | none => none
  | some r =>
  match pWs1 r with
  | none => none
  | some r1 =>
  match pLitCI "KEY".toList r1 with
  | none => none
  | some r2 =>
  match r2.dropWhile pyIsWs with
  | '(' :: r3 =>
    let inner := r3.takeWhile (fun c => c ≠ ')')
    match r3.dropWhile (fun c => c ≠ ')') with
    | ')' :: _ => if inner ≠ [] then some inner else none
    | _ => none
  | _ => none

/-- Anchored match of DDLParser.FOREIGN_KEY_PATTERN, capturing the
constrained column, the referenced table, and the referenced column. -/
def ddlFkMatch (s : List Char) : Option (List Char × List Char × List Char) :=
  match pLitCI "FOREIGN".toList s with
  | none => none
  | some r =>
  match pWs1 r with
  | none => none
  | some r1 =>
  match pLitCI "KEY".toList r1 with
  | none => none
  | some r2 =>
  match pWs1 r2 with
  | none => none
  | some r3 =>
  match pWord1 r3 with
  | none => none
  | some (_, r4) =>
  match r4.dropWhile pyIsWs with
  | '(' :: r5 =>
    let fkCol := r5.takeWhile (fun c => c ≠ ')')
    match r5.dropWhile (fun c => c ≠ ')') with
    | ')' :: r6 =>
      if fkCol = [] then none
      else
        match pLitCI "REFERENCES".toList (r6.dropWhile pyIsWs) with
        | none => none
        | some r7 =>
        match pWs1 r7 with
        | none => none
        | some r8 =>
        match pWord1 r8 with
        | none => none
        | some (w, rw) =>
          let refTableAndRest : List Char × List Char :=
            match rw with
            | '.' :: r9 =>
              match pWord1 r9 with
              | some (w2, r10) => (w ++ '.' :: w2, r10)
              | none => (w, rw)
            | _ => (w, rw)
          match refTableAndRest.2.dropWhile pyIsWs with
          | '(' :: r11 =>
            let refCol := r11.takeWhile (fun c => c ≠ ')')
            match r11.dropWhile (fun c => c ≠ ')') with
            | ')' :: _ => if refCol = [] then none else some (fkCol, refTableAndRest.1, refCol)
            | _ => none
          | _ => none
    | _ => none
  | _ => none

/-- The optional FOR BIT DATA run inside the data-type capture,
returned as the consumed text and the remainder. -/
def ddlForBitData (s : List Char) : Option (List Char × List Char) :=
  match pWs1 s with
  | none => none
  | some r0 =>
  match pLitCI "FOR".toList r0 with
  | none => none
  | some r1 =>
  match pWs1 r1 with
  | none => none
  | some r2 =>
  match pLitCI "BIT".toList r2 with
  | none => none
  | some r3 =>
  match pWs1 r3 with
  | none => none
  | some r4 =>
  match pLitCI "DATA".toList r4 with
  | none => none
  | some r5 => some (s.take (s.length - r5.length), r5)

/-- The optional NOT NULL group, returning the remainder on a match. -/
def ddlNotNull (s : List Char) : Option (List Char) :=
  match pWs1 s with
  | none => none
  | some r0 =>
  match pLitCI "NOT".toList r0 with
  | none => none
  | some r1 =>
  match pWs1 r1 with
  | none => none
  | some r2 => pLitCI "NULL".toList r2

/-- The optional WITH DEFAULT group, capturing the consumed text. -/
def ddlWithDefault (s : List Char) : Option (List Char) × List Char :=
  match pWs1 s with
  | none => (none, s)
  | some r0 =>
  match pLitCI "WITH".toList r0 with
  | none => (none, s)
  | some r1 =>
  match pWs1 r1 with
  | none => (none, s)
  | some r2 =>
  match pLitCI "DEFAULT".toList r2 with
  | none => (none, s)
  | some r3 =>
  match pWs1 r3 with
  | none => (none, s)
  | some r4 =>
  match r4 with
  | c :: r5 =>
    if c = ',' then (none, s)
    else
      let rest := r5.dropWhile (fun x => x ≠ ',')
      (some (s.take (s.length - rest.length)), rest)
  | [] => (none, s)

/-- Anchored match of DDLParser.COLUMN_PATTERN: the column name, the
data type (letters, an optional parenthesised argument, an optional FOR
BIT DATA), an optional NOT NULL, and an optional WITH DEFAULT clause. -/
def ddlColMatch (s : List Char) : Option (List Char × List Char × Bool × Option (List Char)) :=
  match pWord1 s with
  | none => none
  | some (name, r0) =>
  match pWs1 r0 with
  | none => none
  | some r1 =>
  match many1CI (fun c => c.isAlpha) r1 with
  | none => none
  | some (tword, r2) =>
    let t1 : List Char × List Char :=
      match (r2.dropWhile pyIsWs : List Char) with
      | '(' :: r4 =>
        let inner := r4.takeWhile (fun c => c ≠ ')')
        match r4.dropWhile (fun c => c ≠ ')') with
        | ')' :: r5 =>
          if inner ≠ [] then (tword ++ r2.takeWhile pyIsWs ++ '(' :: inner ++ [')'], r5)
          else (tword, r2)
        | _ => (tword, r2)
      | _ => (tword, r2)
    let t2 : List Char × List Char :=
      match ddlForBitData t1.2 with
      | some (txt, r) => (t1.1 ++ txt, r)
      | none => t1
    let t3 : Bool × List Char :=
      match ddlNotNull t2.2 with
      | some r => (true, r)
      | none => (false, t2.2)
    some (name, t2.1, t3.1, (ddlWithDefault t3.2).1)

/-- The WITH DEFAULT removal of _parse_column (the re.sub on the
stripped default clause). -/
def dropWithDefault (s : List Char) : List Char :=
  match pLitCI "WITH".toList (s.dropWhile pyIsWs) with
  | none => s
  | some r =>
    match pWs1 r with
    | none => s
    | some r1 =>
      match pLitCI "DEFAULT".toList r1 with
      | none => s
      | some r2 => r2.dropWhile pyIsWs

/-- DDLParser._parse_column: extract the name, the upper-cased data
type, nullability, and the default expression. -/
def ddl_parse_column (columnDef : List Char) : Option DDLColumn :=
  match ddlColMatch columnDef with
  | none => none
  | some (name, dtype, notNull, defaultClause) =>
    some { name := toUpperList name
           data_type := toUpperList (pyStrip dtype)
           nullable := !notNull
           default_value := defaultClause.map (fun d => dropWithDefault (pyStrip d))
           is_primary_key := false
           foreign_key_ref := none }

/-- Insert or replace a key in the association list modelling the
foreign-keys dictionary. -/
def upsert : List (List Char × List Char) → List Char → List Char →
    List (List Char × List Char)
  | [], k, v => [(k, v)]
  | (k0, v0) :: rest, k, v =>
    if k0 = k then (k0, v) :: rest else (k0, v0) :: upsert rest k v

/-- Lookup in the association list modelling the foreign-keys
dictionary. -/
def lookupAssoc : List (List Char × List Char) → List Char → Option (List Char)
  | [], _ => none
  | (k, v) :: rest, key => if k = key then some v else lookupAssoc rest key

/-- Does the string start with any of the given pieces (the
startswith-tuple constraint skip of parse_content). -/
def startsWithAny (s : List Char) (ps : List (List Char)) : Bool :=
  ps.any (fun p => decide (s.take p.length = p))

/-- One part of the DDL parse loop: a PRIMARY KEY constraint replaces
the key list, a FOREIGN KEY constraint records a reference, other
constraints are skipped, and anything else is parsed as a column. -/
def ddlStep (st : List DDLColumn × List (List Char) × List (List Char × List Char))
    (part0 : List Char) :
    List DDLColumn × List (List Char) × List (List Char × List Char) :=
  let part := pyStrip part0
  if part = [] then st
  else
    match ddlPkMatch part with
    | some pkCols => (st.1, (splitOnChar ',' pkCols).map pyStrip, st.2.2)
    | none =>
      match ddlFkMatch part with
      | some (fkCol, refTable, refCol) =>
        (st.1, st.2.1, upsert st.2.2 (pyStrip fkCol) (refTable ++ '.' :: pyStrip refCol))
      | none =>
        if startsWithAny (toUpperList part)
            ["CONSTRAINT".toList, "UNIQUE".toList, "CHECK".toList, "INDEX".toList] then st
        else
          match ddl_parse_column part with
          | some c => (st.1 ++ [c], st.2.1, st.2.2)
          | none => st

/-- DDLParser.parse_content: clean the content, find the CREATE TABLE
statement (ValueError when absent, modelled as Except.error), split the
body, process the parts, and set the primary-key and foreign-key flags
on the columns. -/
def ddl_parse_content (content : List Char) : Except (List Char) DDLTable :=
  match searchPos ctMatchAt (ddlCleanContent content) with
  | none => Except.error "No CREATE TABLE statement found".toList
  | some (schemaOpt, tname, body) =>
    let st := (ddlSplitColumns body).foldl ddlStep ([], [], [])
    let columns := st.1.map (fun c =>
      { c with
        is_primary_key := decide (c.name ∈ st.2.1)
        foreign_key_ref := lookupAssoc st.2.2 c.name })
    Except.ok
      { schema := schemaOpt.getD "DBO".toList
        name := tname
        columns := columns
        primary_key := st.2.1
        foreign_keys := st.2.2 }

example : ddl_parse_content
    "CREATE TABLE S.T (K INTEGER NOT NULL, V DECIMAL(15,2), PRIMARY KEY(K))".toList =
    Except.ok
      { schema := "S".toList
        name := "T".toList
        columns :=
          [{ name := "K".toList, data_type := "INTEGER".toList, nullable := false,
             default_value := none, is_primary_key := true, foreign_key_ref := none },
           { name := "V".toList, data_type := "DECIMAL(15,2)".toList, nullable := true,
             default_value := none, is_primary_key := false, foreign_key_ref := none }]
        primary_key := ["K".toList]
        foreign_keys := [] } := by decide

example : ddl_parse_content "CREATE TABLE T2 (A CHAR(3) NOT NULL)".toList =
    Except.ok
      { schema := "DBO".toList
        name := "T2".toList
        columns :=
          [{ name := "A".toList, data_type := "CHAR(3)".toList, nullable := false,
             default_value := none, is_primary_key := false, foreign_key_ref := none }]
        primary_key := []
        foreign_keys := [] } := by decide

/-! ### Claim theorems -/

/-- C1: the claim says PIC S9(7)V99 COMP-3 parses to 9 total digits,
scale 2, signed, storage width 5, and Decimal(9, 2).  Evaluating
parse_pic_clause and convert at that input instead yields 7 integer
digits, 99 decimal digits (the inline V99 capture is fed to int, not
measured for length), total 106 digits, storage width 54, and
Decimal(106, 99) — contradicting the claim and the docstring examples
of vsam_types.py; even with 2 decimal digits the width formula
(d + 1) / 2 + 1 would give 6, not 5. -/
theorem C1_pic_s9_7_v99_comp3_eval :
    parse_pic_clause "PIC S9(7)V99 COMP-3".toList =
      Except.ok { pic_type := CobolPicType.SIGNED_NUMERIC, integer_digits := 7,
                  decimal_digits := 99, usage := CobolUsage.COMP_3,
                  total_length := 54, is_signed := true } ∧
    convert "PIC S9(7)V99 COMP-3".toList = SparkType.DecimalType 106 99 ∧
    (54 : ℕ) ≠ 5 ∧ (106 : ℕ) ≠ 9 ∧ (99 : ℕ) ≠ 2 := by decide

/-- C2: the claim says every parseable COMP-3 phrase with d total
digits stores in ceil((d+1)/2) bytes.  At PIC 9(3) COMP-3 the code
yields usage COMP-3, d = 3, and total_length 3, while
ceil((3+1)/2) = (3+2)/2 = 2; the code computes (d+1)/2 + 1 with floor
division, which matches the claim only for even d, and contradicts the
code's own comment stating (n+1)/2 bytes. -/
theorem C2_comp3_width_odd_digits :
    get_storage_bytes "PIC 9(3) COMP-3".toList = Except.ok 3 ∧
    (parse_pic_clause "PIC 9(3) COMP-3".toList).map ParsedPicClause.usage =
      Except.ok CobolUsage.COMP_3 ∧
    (parse_pic_clause "PIC 9(3) COMP-3".toList).map ParsedPicClause.total_digits =
      Except.ok 3 ∧
    (3 : ℕ) ≠ (3 + 2) / 2 := by decide

/-- C3: the claim says the S4 copybook gets offsets A=0, B=4, C=4, D=8
and record length 10, the REDEFINES field not advancing the cursor.
Evaluating parse_content shows C does take the offset of B, but the
cursor advance for the elementary field C happens before the REDEFINES
overlay (despite the comment in the source saying the offset is not
advanced), so D gets offset 12 and get_record_length returns 14. -/
theorem C3_s4_redefines_layout_eval :
    (cb_parse_content false s4Copybook).map (fun fs => fs.map (fun f => (f.name, f.offset))) =
      Except.ok [("REC".toList, 0), ("A".toList, 0), ("B".toList, 4), ("C".toList, 4),
                 ("D".toList, 12)] ∧
    (cb_parse_content false s4Copybook).map cb_get_record_length = Except.ok 14 ∧
    (12 : ℕ) ≠ 8 ∧ (14 : ℕ) ≠ 10 := by decide

/-- C4: the claim says the sum of length times occurs over elementary
non-REDEFINES fields always equals get_record_length.  On the fields
produced from the S4 copybook the sum is 10 but get_record_length is
14, because the layout cursor advances for the REDEFINES field C. -/
theorem C4_sum_vs_record_length_s4 :
    (cb_parse_content false s4Copybook).map (fun fs =>
        ((fs.filter (fun f => f.is_elementary && f.redefines.isNone)).map
          (fun f => f.length * f.occurs)).sum) = Except.ok 10 ∧
    (cb_parse_content false s4Copybook).map cb_get_record_length = Except.ok 14 ∧
    (10 : ℕ) ≠ 14 := by decide

/-- C5 counterexample: the claim says a final low nibble 0xB decodes as
negative and nibbles outside 0xA-0xF raise PackedInvalidSign.  On the
byte 0x1B (final low nibble 0xB) decode_packed_decimal returns 1, which
is not negative, and no error is raised (the decoder is total: only
0xD is treated as a sign). -/
theorem C5_counterexample :
    packedSignNibble [0x1B] = 11 ∧
    decode_packed_decimal [0x1B] 0 = 1 ∧
    ¬ decode_packed_decimal [0x1B] 0 < 0 := by
  have hv : decode_packed_decimal [0x1B] 0 = 1 := by
    rw [decode_packed_decimal_eq _ _ (by decide)]
    have h : padScale (digitsStr (packedDigits [0x1B])) 0 = ['1'] := by decide
    have hs : packedSignNibble [0x1B] = 11 := by decide
    rw [h, hs, decimalMag_eval _ 1 0 (by decide) (by decide)]
    norm_num
  refine ⟨by decide, hv, ?_⟩
  rw [hv]
  norm_num

/-- C5 amended: for every non-empty byte sequence and every scale,
decode_packed_decimal raises no error for any final low nibble (it is a
total function); the result is negative exactly when the final low
nibble is 0xD and the decoded value is nonzero, and it is non-negative
for every other final low nibble. -/
theorem C5_amended (data : List ℕ) (scale : ℤ) (h : data ≠ []) :
    (packedSignNibble data ≠ 13 → 0 ≤ decode_packed_decimal data scale) ∧
    (decode_packed_decimal data scale < 0 ↔
      packedSignNibble data = 13 ∧ decode_packed_decimal data scale ≠ 0) := by
  have hM0 := decimalMag_nonneg (padScale (digitsStr (packedDigits data)) scale)
  rw [decode_packed_decimal_eq data scale h]
  set M := decimalMag (padScale (digitsStr (packedDigits data)) scale) with hMdef
  by_cases hs : packedSignNibble data = 13
  · rw [if_pos hs, neg_one_mul]
    refine ⟨fun hne => absurd hs hne, ?_, ?_⟩
    · intro hlt
      refine ⟨hs, fun h0 => ?_⟩
      rw [h0] at hlt
      exact lt_irrefl 0 hlt
    · rintro ⟨-, hne⟩
      have hMne : M ≠ 0 := fun h0 => hne (by rw [h0, neg_zero])
      exact neg_lt_zero.mpr (lt_of_le_of_ne hM0 (Ne.symm hMne))
  · rw [if_neg hs, one_mul]
    refine ⟨fun _ => hM0, ?_, ?_⟩
    · intro hlt
      exact absurd hM0 (not_le.mpr hlt)
    · rintro ⟨h13, -⟩
      exact absurd h13 hs

/-- C5 witness: the amended theorem applied at the concrete byte 0x1B
with scale 0. -/
theorem C5_amended_witness : ¬ decode_packed_decimal [0x1B] 0 < 0 := by
  have h := (C5_amended [0x1B] 0 (by decide)).1 (by decide)
  exact not_lt.mpr h

/-- C6: the claim says decoding then re-encoding a packed decimal at
the same precision and scale reproduces the bytes.  The bytes 12 3C
decode (scale 0) to 123, a 3-digit value, but encode_packed_decimal at
precision 3 returns the single byte 1C: for odd digit counts the
encoder overwrites the low nibble of the last packed byte with the sign
and drops the final digit, so the round trip fails. -/
theorem C6_roundtrip_failure :
    decode_packed_decimal [0x12, 0x3C] 0 = 123 ∧
    encode_packed_decimal 123 3 0 = some [0x1C] ∧
    some [0x1C] ≠ some [0x12, 0x3C] := by
  refine ⟨?_, by decide, by decide⟩
  rw [decode_packed_decimal_eq _ _ (by decide)]
  have h : padScale (digitsStr (packedDigits [0x12, 0x3C])) 0 = ['1', '2', '3'] := by decide
  have hs : packedSignNibble [0x12, 0x3C] = 12 := by decide
  rw [h, hs, decimalMag_eval _ 123 0 (by decide) (by decide)]
  norm_num

/-- C7 counterexample: the claim says the decoded zoned value is
negative exactly when the zone nibble of the last byte is 0xD.  On the
byte 0xD0 the zone is 0xD but the decoded value is 0, which is not
negative. -/
theorem C7_counterexample :
    zonedZone [0xD0] = 13 ∧
    decode_zoned_decimal [0xD0] 0 = 0 ∧
    ¬ decode_zoned_decimal [0xD0] 0 < 0 := by
  have hv : decode_zoned_decimal [0xD0] 0 = 0 := by
    rw [decode_zoned_decimal_eq _ _ (by decide)]
    have h : padScale (digitsStr (zonedDigits [0xD0])) 0 = ['0'] := by decide
    rw [h, decimalMag_eval _ 0 0 (by decide) (by decide)]
    norm_num
  refine ⟨by decide, hv, ?_⟩
  rw [hv]
  norm_num

/-- C7 amended: the two concrete decodes of the claim hold (F1 F2 D3 at
scale 0 gives -123 and F0 F4 F2 gives 42); in general, for every
non-empty input, the result is negative exactly when the zone nibble of
the last byte is 0xD and the decoded value is nonzero, and it is
non-negative for every other zone nibble. -/
theorem C7_amended :
    decode_zoned_decimal [0xF1, 0xF2, 0xD3] 0 = -123 ∧
    decode_zoned_decimal [0xF0, 0xF4, 0xF2] 0 = 42 ∧
    ∀ (data : List ℕ) (scale : ℤ), data ≠ [] →
      ((zonedZone data ≠ 13 → 0 ≤ decode_zoned_decimal data scale) ∧
       (decode_zoned_decimal data scale < 0 ↔
         zonedZone data = 13 ∧ decode_zoned_decimal data scale ≠ 0)) := by
  refine ⟨?_, ?_, ?_⟩
  · rw [decode_zoned_decimal_eq _ _ (by decide)]
    have h : padScale (digitsStr (zonedDigits [0xF1, 0xF2, 0xD3])) 0 = ['1', '2', '3'] := by
      decide
    have hz : zonedZone [0xF1, 0xF2, 0xD3] = 13 := by decide
    rw [h, hz, decimalMag_eval _ 123 0 (by decide) (by decide)]
    norm_num
  · rw [decode_zoned_decimal_eq _ _ (by decide)]
    have h : padScale (digitsStr (zonedDigits [0xF0, 0xF4, 0xF2])) 0 = ['0', '4', '2'] := by
      decide
    have hz : zonedZone [0xF0, 0xF4, 0xF2] = 15 := by decide
    rw [h, hz, decimalMag_eval _ 42 0 (by decide) (by decide)]
    norm_num
  · intro data scale h
    have hM0 := decimalMag_nonneg (padScale (digitsStr (zonedDigits data)) scale)
    rw [decode_zoned_decimal_eq data scale h]
    set M := decimalMag (padScale (digitsStr (zonedDigits data)) scale) with hMdef
    by_cases hz : zonedZone data = 13
    · rw [if_pos hz, mul_neg_one]
      refine ⟨fun hne => absurd hz hne, ?_, ?_⟩
      · intro hlt
        refine ⟨hz, fun h0 => ?_⟩
        rw [h0] at hlt
        exact lt_irrefl 0 hlt
      · rintro ⟨-, hne⟩
        have hMne : M ≠ 0 := fun h0 => hne (by rw [h0, neg_zero])
        exact neg_lt_zero.mpr (lt_of_le_of_ne hM0 (Ne.symm hMne))
    · rw [if_neg hz, mul_one]
      refine ⟨fun _ => hM0, ?_, ?_⟩
      · intro hlt
        exact absurd hM0 (not_le.mpr hlt)
      · rintro ⟨h13, -⟩
        exact absurd h13 hz

/-- C7 witness: the general part of the amended theorem applied at the
concrete byte 0xF0 with scale 0. -/
theorem C7_amended_witness : ¬ decode_zoned_decimal [0xF0] 0 < 0 := by
  have h := (C7_amended.2.2 [0xF0] 0 (by decide)).1 (by decide)
  exact not_lt.mpr h

/-- C8: parsing the S5 statement CREATE TABLE S.T (K INTEGER NOT NULL,
V DECIMAL(15,2), PRIMARY KEY(K)) yields schema S, table T, column K of
type INTEGER not nullable and primary key, column V of type
DECIMAL(15,2) nullable and not primary key, and primary_key [K],
exactly as the claim states. -/
theorem C8_ddl_parse_s5 :
    ddl_parse_content
      "CREATE TABLE S.T (K INTEGER NOT NULL, V DECIMAL(15,2), PRIMARY KEY(K))".toList =
    Except.ok
      { schema := "S".toList
        name := "T".toList
        columns :=
          [{ name := "K".toList, data_type := "INTEGER".toList, nullable := false,
             default_value := none, is_primary_key := true, foreign_key_ref := none },
           { name := "V".toList, data_type := "DECIMAL(15,2)".toList, nullable := true,
             default_value := none, is_primary_key := false, foreign_key_ref := none }]
        primary_key := ["K".toList]
        foreign_keys := [] } := by decide

/-- C9: VSAMTypeConverter.convert is total by construction (the
embedding returns a SparkType for every input string, mirroring the
try-except around parse_pic_clause), and every string on which
parse_pic_clause fails maps to StringType. -/
theorem C9_convert_total (s e : List Char)
    (h : parse_pic_clause s = Except.error e) : convert s = SparkType.StringType := by
  unfold convert
  rw [h]

/-- C9 witness: the theorem applied at the unparseable input HELLO. -/
theorem C9_convert_total_witness : convert "HELLO".toList = SparkType.StringType :=
  C9_convert_total "HELLO".toList ("Unable to parse PIC clause: HELLO".toList) (by decide)

/-- C10: on empty input each numeric decoder returns zero rather than
raising, for every scale and signedness argument:
decode_packed_decimal, decode_zoned_decimal, and decode_binary all give
0 on the empty byte sequence. -/
theorem C10_empty_decoders (scale : ℤ) (signed : Bool) :
    decode_packed_decimal [] scale = 0 ∧
    decode_zoned_decimal [] scale = 0 ∧
    decode_binary [] signed = 0 := by
  refine ⟨?_, ?_, ?_⟩
  · rw [decode_packed_decimal, if_pos rfl]
  · rw [decode_zoned_decimal, if_pos rfl]
  · rw [decode_binary, if_pos rfl]

/-- C10 witness: the theorem applied at scale 5 and signed true. -/
theorem C10_empty_decoders_witness :
    decode_packed_decimal [] 5 = 0 ∧
    decode_zoned_decimal [] 5 = 0 ∧
    decode_binary [] true = 0 :=
  C10_empty_decoders 5 true
